import Mathlib

/-!
# Verification of the cooling-tower concentration simulator (src/app.py)

Shallow embedding of `FrenchCreekStyleEngine` from src/app.py over exact
rational arithmetic. Design decisions of the embedding:

* Numbers are `ℚ`. The one place where Python's binary64 arithmetic is
  observable at the level of the verified claims is the accumulation
  `cycle += 0.1` in `run_simulation`: repeated binary64 addition of the
  literal 0.1 drifts upward, so the loop exits after 291 appended steps
  (the 291st cycle value is 30.00000000000016 &gt; 30), one step earlier
  than exact decimal stepping would. We therefore model that single
  operation bit-exactly: `f01` is the exact rational value of the
  binary64 literal 0.1 and `roundB64` rounds an exact sum to 53-bit
  precision, round-to-nearest ties-to-even, which is IEEE-754 binary64
  addition for the range the cycle variable inhabits. All other
  arithmetic of the engine is embedded exactly.
* `math.log10` is a binary64 approximation in the source; the embedding
  takes the common logarithm as an explicit function parameter
  `log10 : ℚ → ℚ` and threads it to exactly the places where the source
  calls `math.log10`.
* Python dicts with fixed key sets become structures. `TDS` is the one
  key that the source reads with a presence test (`w.get('TDS', ...)`),
  so it is an `Option`. Truthiness of the optional acid-feed pH
  (`if des.get('acid_ph')`) is modeled by `truthy`: absent or zero is
  false.
* The history entries built in the source keep rounded display copies
  (`round(cycle, 1)` etc.) of the step data. The embedding's `Step`
  keeps the full concentrated snapshot and indices; no verified claim
  is about the display rounding.
-/

attribute [local semireducible] Rat.add Rat.mul Rat.sub Rat.inv Rat.ofScientific

namespace CoolingTower

/-- Structural base-2 logarithm with explicit fuel, so that concrete values
kernel-reduce (the library's well-founded version does not). -/
def natLog2F : ℕ → ℕ → ℕ
  | 0, _ => 0
  | fuel + 1, n => if 2 ≤ n then natLog2F fuel (n / 2) + 1 else 0

/-- Base-2 logarithm: `natLog2 n` is the position of the leading bit of `n`. -/
def natLog2 (n : ℕ) : ℕ := natLog2F n n

/-- Ion composition of a water sample, the key set of the dicts built in
src/app.py (lines 232-234 and the per-step `curr` dict). All
concentrations are rationals; `TDS` is optional because the source reads
it with a presence test (`w.get('TDS', ...)`, line 45). -/
structure Water where
  CaH : ℚ
  MgH : ℚ
  Alk : ℚ
  Cl : ℚ
  SO4 : ℚ
  SiO2 : ℚ
  oPO4 : ℚ
  pH : ℚ
  Cond : ℚ
  TDS : Option ℚ := none
deriving DecidableEq

/-- Cooling-tower design parameters (the `des` dict, lines 235-236).
`acid_ph` is the optional acid-feed target pH (read with truthiness at
line 90). -/
structure Design where
  q_circ : ℚ
  dt : ℚ
  t_out : ℚ
  proc_loss : ℚ
  load : ℚ
  acid_ph : Option ℚ := none
deriving DecidableEq

/-- Constraint thresholds (the `const` dict, lines 237-238). -/
structure Constraints where
  max_SiO2 : ℚ
  max_LSI : ℚ
  max_CaSO4 : ℚ
  max_CaPO4 : ℚ
deriving DecidableEq

/-- Result record of `calculate_indices` (lines 68-73). -/
structure Indices where
  LSI : ℚ
  RSI : ℚ
  PSI : ℚ
  LarsonSkold : ℚ
  Ca_SO4 : ℚ
  Mg_SiO2 : ℚ
  Ca_PO4_Product : ℚ
deriving DecidableEq

/-- Stop reasons of the simulation loop. The first five are the strings
produced at lines 101-105 of src/app.py ("Hidrolik Sınır (Su Kaybı)",
"Silis Limiti", "LSI Limiti", "CaSO4 (Alçıtaşı) Riski",
"Ca-Fosfat Riski"); `mgSilicateRisk` stands for the
"Magnesium Silicate Risk" reason named by the spec, which has no
counterpart in the source. -/
inductive StopReason where
  | hydraulicLimit
  | silicaLimit
  | lsiLimit
  | gypsumRisk
  | caPhosphateRisk
  | mgSilicateRisk
deriving DecidableEq

/-- Python truthiness of the optional acid-feed pH: a missing key and the
float 0.0 are falsy, every other float is truthy. -/
def truthy : Option ℚ → Bool
  | none => false
  | some x => decide (x ≠ 0)

/-- Exact value of the binary64 floating-point literal `0.1`
(0x3FB999999999999A). -/
def f01 : ℚ := 3602879701896397 / 2 ^ 55

/-- Round `x` to the nearest multiple of the grid width `u`, ties to the
even multiple. -/
def roundToGrid (x u : ℚ) : ℚ :=
  let n : ℤ := (x / u).floor
  let r : ℚ := x / u - (n : ℚ)
  let m : ℤ := if r < 1 / 2 then n else if 1 / 2 < r then n + 1 else if n % 2 = 0 then n else n + 1
  (m : ℚ) * u

/-- Round a rational `x ≥ 1` to the nearest IEEE-754 binary64 value,
ties to even. For `2 ^ e ≤ x < 2 ^ (e + 1)` the representable values are
the multiples of `2 ^ e / 2 ^ 52`. Only the range `[1, 31]`, the one the
simulator's cycle variable inhabits, is relevant to the development. -/
def roundB64 (x : ℚ) : ℚ := roundToGrid x (2 ^ natLog2 (Int.toNat x.floor) / 2 ^ 52)

/-- Binary64 evaluation of `cycle + 0.1` (line 116 of src/app.py). -/
def fladd01 (x : ℚ) : ℚ := roundB64 (x + f01)

/-- The trajectory of the source's `cycle` variable: `1.0`, then
binary64 increments by `0.1`. -/
def cyc : ℕ → ℚ
  | 0 => 1
  | k + 1 => fladd01 (cyc k)

/-- Head-style iteration of the binary64 increment, used to evaluate the
trajectory in bounded-depth chunks. -/
def fliter : ℕ → ℚ → ℚ
  | 0, c => c
  | j + 1, c => fladd01 (fliter j c)

theorem cyc_shift (k j : ℕ) : cyc (k + j) = fliter j (cyc k) := by
  induction j with
  | zero => rfl
  | succ n ih => rw [← Nat.add_assoc, cyc, ih, fliter]

set_option maxRecDepth 4000 in
theorem cyc_58 : cyc 58 = 7656119366529835 / 2 ^ 50 := by decide

set_option maxRecDepth 4000 in
theorem cyc_116 : cyc 116 = 1773292353277129 / 2 ^ 47 := by
  rw [show (116 : ℕ) = 58 + 58 from rfl, cyc_shift, cyc_58]; decide

set_option maxRecDepth 4000 in
theorem cyc_174 : cyc 174 = 5179139571476069 / 2 ^ 48 := by
  rw [show (174 : ℕ) = 116 + 58 from rfl, cyc_shift, cyc_116]; decide

set_option maxRecDepth 4000 in
theorem cyc_232 : cyc 232 = 6811694436397897 / 2 ^ 48 := by
  rw [show (232 : ℕ) = 174 + 58 from rfl, cyc_shift, cyc_174]; decide

set_option maxRecDepth 4000 in
theorem cyc_289 : cyc 289 = 8416101803648659 / 2 ^ 48 := by
  rw [show (289 : ℕ) = 232 + 57 from rfl, cyc_shift, cyc_232]; decide

theorem cyc_290 : cyc 290 = 8444249301319725 / 2 ^ 48 := by
  rw [show (290 : ℕ) = 289 + 1 from rfl, cyc_shift, cyc_289]; decide

/-- The 291st cycle value exceeds the hard ceiling 30.0: binary64 drift makes
`1.0` plus 290 increments of `0.1` come out as 30.00000000000016. -/
theorem thirty_lt_cyc_290 : (30 : ℚ) < cyc 290 := by rw [cyc_290]; decide

theorem cyc_289_lt_thirty : cyc 289 < 30 := by rw [cyc_289]; decide

/-- Evaporation coefficient of the engine (src/app.py line 31). -/
def evap_factor : ℚ := 0.00153

/-- Temperature-dependent equilibrium constants (src/app.py lines 33-37).
The source calls `math.log10`; the embedding threads the logarithm as the
explicit parameter `log10`. -/
def get_log_k (log10 : ℚ → ℚ) (temp_c : ℚ) : ℚ × ℚ :=
  let tk := temp_c + 273.15
  let pk2 := 107.8871 + 0.03252849 * tk - 5151.79 / tk - 38.92561 * log10 tk + 563713.9 / tk ^ 2
  let pksp := 171.9065 + 0.077993 * tk - 2839.319 / tk - 71.595 * log10 tk
  (pk2, pksp)

/-- Sentinel index record returned when calcium hardness or alkalinity is
non-positive (src/app.py line 43). -/
def sentinel_indices : Indices :=
  { LSI := -99, RSI := 99, PSI := 99, LarsonSkold := 0,
    Ca_SO4 := 0, Mg_SiO2 := 0, Ca_PO4_Product := 0 }

/-- The TDS value the index calculator works with (src/app.py line 45):
a directly supplied TDS, otherwise conductivity times 0.65. The source
default `w.get('Cond', 1000)` never fires because `Cond` is always present
in the compositions the app builds. -/
def effectiveTDS (w : Water) : ℚ := w.TDS.getD (w.Cond * 0.65)

/-- Saturation/corrosion index calculator (src/app.py lines 39-73,
`calculate_indices`). The pair returned by `get_log_k` is bound and never
used, exactly as in the source (line 46). -/
def calculate_indices (log10 : ℚ → ℚ) (w : Water) (t_c : ℚ) : Indices :=
  let cah := w.CaH
  let alk := w.Alk
  if cah ≤ 0 ∨ alk ≤ 0 then sentinel_indices
  else
    let tds := effectiveTDS w
    let _pk := get_log_k log10 t_c
    let A := (log10 (tds + 1) - 1) / 10
    let B := -13.12 * log10 (t_c + 273) + 34.55
    let C := log10 (cah + 0.1) - 0.4
    let D := log10 (alk + 0.1)
    let pHs := 9.3 + A + B - (C + D)
    let ph := w.pH
    let LSI := ph - pHs
    let RSI := 2 * pHs - ph
    let pHeq := 1.465 * log10 (alk + 0.1) + 4.54
    let PSI := 2 * pHs - pHeq
    let pt_risk := if w.oPO4 > 0.1 then cah * w.oPO4 else 0
    let epm_Cl := w.Cl / 35.5
    let epm_SO4 := w.SO4 / 48.0
    let epm_Alk := alk / 50.0
    let LS_Index := (epm_Cl + epm_SO4) / (epm_Alk + 0.001)
    { LSI := LSI, RSI := RSI, PSI := PSI, LarsonSkold := LS_Index,
      Ca_SO4 := cah * w.SO4, Mg_SiO2 := w.MgH * w.SiO2, Ca_PO4_Product := pt_risk }

/-- Variant of `calculate_indices` with the dead `get_log_k` call removed,
used to state that the call never influences the result (claim C10). -/
def calculate_indices_noK (log10 : ℚ → ℚ) (w : Water) (t_c : ℚ) : Indices :=
  let cah := w.CaH
  let alk := w.Alk
  if cah ≤ 0 ∨ alk ≤ 0 then sentinel_indices
  else
    let tds := effectiveTDS w
    let A := (log10 (tds + 1) - 1) / 10
    let B := -13.12 * log10 (t_c + 273) + 34.55
    let C := log10 (cah + 0.1) - 0.4
    let D := log10 (alk + 0.1)
    let pHs := 9.3 + A + B - (C + D)
    let ph := w.pH
    let LSI := ph - pHs
    let RSI := 2 * pHs - ph
    let pHeq := 1.465 * log10 (alk + 0.1) + 4.54
    let PSI := 2 * pHs - pHeq
    let pt_risk := if w.oPO4 > 0.1 then cah * w.oPO4 else 0
    let epm_Cl := w.Cl / 35.5
    let epm_SO4 := w.SO4 / 48.0
    let epm_Alk := alk / 50.0
    let LS_Index := (epm_Cl + epm_SO4) / (epm_Alk + 0.001)
    { LSI := LSI, RSI := RSI, PSI := PSI, LarsonSkold := LS_Index,
      Ca_SO4 := cah * w.SO4, Mg_SiO2 := w.MgH * w.SiO2, Ca_PO4_Product := pt_risk }

/-- One concentration step of the simulation loop (src/app.py lines 85-97):
scale every key of the raw dict except `pH` by the cycle, apply the
acid-feed or natural pH model, then overwrite `TDS` from the concentrated
conductivity. The `pH := 0` in the scaled record is a placeholder for the
dict entry the source has not yet written at that point; both branches of
the mode split assign it. -/
def concentrate (log10 : ℚ → ℚ) (raw : Water) (des : Design) (cycle : ℚ) : Water :=
  let scaled : Water :=
    { CaH := raw.CaH * cycle, MgH := raw.MgH * cycle, Alk := raw.Alk * cycle,
      Cl := raw.Cl * cycle, SO4 := raw.SO4 * cycle, SiO2 := raw.SiO2 * cycle,
      oPO4 := raw.oPO4 * cycle, Cond := raw.Cond * cycle,
      TDS := raw.TDS.map (fun v => v * cycle), pH := 0 }
  let moded : Water :=
    if truthy des.acid_ph then
      { scaled with pH := des.acid_ph.getD 0, Alk := raw.Alk * cycle * 0.65 }
    else
      { scaled with pH := min (raw.pH + log10 cycle) 9.3 }
  { moded with TDS := some (moded.Cond * 0.65) }

/-- The stop-reason decision of one simulation step (src/app.py
lines 100-105): five checks in a fixed priority order. -/
def stopCheck (max_hydro_cycle cycle : ℚ) (curr : Water) (idx : Indices)
    (const : Constraints) : Option StopReason :=
  if cycle ≥ max_hydro_cycle then some .hydraulicLimit
  else if curr.SiO2 > const.max_SiO2 then some .silicaLimit
  else if idx.LSI > const.max_LSI then some .lsiLimit
  else if idx.Ca_SO4 > const.max_CaSO4 then some .gypsumRisk
  else if idx.Ca_PO4_Product > const.max_CaPO4 then some .caPhosphateRisk
  else none

/-- Modelled from the spec: the six-rule stop priority of section 4.2
step 4, including the sixth rule `pH > 8.8 AND Mg×SiO2 > 40000 →
"Magnesium Silicate Risk"`, which has no counterpart in src/app.py.
Used only to compare claim C2 against the implemented `stopCheck`. -/
def specStopCheck (max_hydro_cycle cycle : ℚ) (curr : Water) (idx : Indices)
    (const : Constraints) : Option StopReason :=
  if cycle ≥ max_hydro_cycle then some .hydraulicLimit
  else if curr.SiO2 > const.max_SiO2 then some .silicaLimit
  else if idx.LSI > const.max_LSI then some .lsiLimit
  else if idx.Ca_SO4 > const.max_CaSO4 then some .gypsumRisk
  else if idx.Ca_PO4_Product > const.max_CaPO4 then some .caPhosphateRisk
  else if curr.pH > 8.8 ∧ idx.Mg_SiO2 > 40000 then some .mgSilicateRisk
  else none

/-- One history entry (src/app.py lines 107-111). The source stores rounded
display copies (`round(cycle, 1)`, `round(curr['pH'], 2)`, ...); the
embedding keeps the cycle, the full concentrated snapshot and the full
index record, from which those display values are derived. -/
structure Step where
  Cycle : ℚ
  curr : Water
  idx : Indices
  Stop_Reason : Option StopReason
deriving DecidableEq

/-- Default step used as the (never-reached) fallback of list lookups. -/
def dummyStep : Step :=
  { Cycle := 0,
    curr := { CaH := 0, MgH := 0, Alk := 0, Cl := 0, SO4 := 0, SiO2 := 0,
              oPO4 := 0, pH := 0, Cond := 0, TDS := none },
    idx := sentinel_indices,
    Stop_Reason := none }

/-- The step record built by one loop iteration at a given cycle. -/
def mkStep (log10 : ℚ → ℚ) (raw : Water) (des : Design) (const : Constraints)
    (skin max_hydro : ℚ) (cycle : ℚ) : Step :=
  let curr := concentrate log10 raw des cycle
  let idx := calculate_indices log10 curr skin
  { Cycle := cycle, curr := curr, idx := idx,
    Stop_Reason := stopCheck max_hydro cycle curr idx const }

/-- Selection of the reported "last safe" entry (src/app.py line 114):
`history[-2]` when the history has more than one entry, else
`history[-1]`. The fallback element of `getD` is never used because the
history is non-empty at that point. -/
def pickSafe (history : List Step) : Step :=
  if 1 < history.length then history.getD (history.length - 2) dummyStep
  else history.getD (history.length - 1) dummyStep

/-- The `while True` loop of `run_simulation` (src/app.py lines 84-116),
embedded with explicit fuel. `simLoop_fuel_mono` shows the result is
stable under enlarging the fuel and `run_simulation_terminates` shows the
fuel budget used by `run_simulation` is never exhausted, so the fueled
function is a faithful rendering of the unbounded loop. The increment
`cycle += 0.1` is the bit-exact binary64 step `fladd01`. -/
def simLoop (log10 : ℚ → ℚ) (raw : Water) (des : Design) (const : Constraints)
    (skin max_hydro : ℚ) : ℕ → ℚ → List Step → Option (Step × List Step)
  | 0, _, _ => none
  | fuel + 1, cycle, history =>
    let s := mkStep log10 raw des const skin max_hydro cycle
    let history' := history ++ [s]
    if s.Stop_Reason.isSome ∨ cycle > 30.0 then some (pickSafe history', history')
    else simLoop log10 raw des const skin max_hydro fuel (fladd01 cycle) history'

/-- The derived quantities computed once per run (src/app.py lines 78-82). -/
def skin_temp (des : Design) : ℚ := des.t_out + 15

/-- Uncontrolled losses (src/app.py line 79). -/
def losses (des : Design) : ℚ := des.proc_loss + des.q_circ * 0.0002

/-- Evaporation rate (src/app.py line 80). -/
def evap (des : Design) : ℚ := des.q_circ * des.dt * evap_factor * (des.load / 100)

/-- Hydraulic ceiling (src/app.py line 82). -/
def max_hydro_cycle (des : Design) : ℚ :=
  if losses des > 0 then (evap des + losses des) / losses des else 50.0

/-- The concentration simulator (src/app.py lines 75-116). Fuel 291 is
enough for every input; see `run_simulation_terminates`. -/
def run_simulation (log10 : ℚ → ℚ) (raw : Water) (des : Design)
    (const : Constraints) : Option (Step × List Step) :=
  simLoop log10 raw des const (skin_temp des) (max_hydro_cycle des) 291 1.0 []

/-- Result record of the water-balance calculator (spec section 3). -/
structure WaterBalance where
  evaporation : ℚ
  windage : ℚ
  totalBlowdownNeeded : ℚ
  controlledBlowdown : ℚ
  makeup : ℚ
  liquidLoss : ℚ
  retentionTime : ℚ
  halfLife : ℚ
deriving DecidableEq

/-- Modelled from the spec: the repository's `WaterBalanceCalculator`
(`computeWaterBalance`, spec section 4.3) is not present under src/; only
this spec section describes it. The system volume is passed explicitly
because the `Design` record embedded from the source has no volume field. -/
def computeWaterBalance (des : Design) (volume : ℚ) (cycles : ℚ) : WaterBalance :=
  let evaporation := des.q_circ * des.dt * 0.00153 * (des.load / 100)
  let windage := des.q_circ * 0.0002
  let totalBlowdownNeeded := if cycles > 1 then evaporation / (cycles - 1) else 0
  let controlledBlowdown := max 0 (totalBlowdownNeeded - windage - des.proc_loss)
  let makeup := evaporation + totalBlowdownNeeded
  let liquidLoss := controlledBlowdown + windage + des.proc_loss
  let retentionTime := if liquidLoss > 0 then volume / liquidLoss else 999
  let halfLife := 0.693 * retentionTime
  { evaporation := evaporation, windage := windage,
    totalBlowdownNeeded := totalBlowdownNeeded,
    controlledBlowdown := controlledBlowdown, makeup := makeup,
    liquidLoss := liquidLoss, retentionTime := retentionTime,
    halfLife := halfLife }

section TrajectoryBounds

theorem ratFloor_le (q : ℚ) : (q.floor : ℚ) ≤ q := Rat.le_floor.mp le_rfl

theorem lt_ratFloor_add_one (q : ℚ) : q < (q.floor : ℚ) + 1 := by
  by_contra h
  push_neg at h
  have h2 : ((q.floor + 1 : ℤ) : ℚ) ≤ q := by push_cast; linarith
  have h3 := Rat.le_floor.mpr h2
  omega

theorem pow_natLog2F_le : ∀ fuel n : ℕ, 1 ≤ n → n ≤ fuel → 2 ^ natLog2F fuel n ≤ n := by
  intro fuel
  induction fuel with
  | zero => intro n h1 h2; omega
  | succ m ih =>
    intro n h1 h2
    rw [natLog2F]
    split
    · next h =>
      have ihh := ih (n / 2) (by omega) (by omega)
      calc 2 ^ (natLog2F m (n / 2) + 1) = 2 ^ natLog2F m (n / 2) * 2 := by rw [pow_succ]
      _ ≤ n / 2 * 2 := by omega
      _ ≤ n := by omega
    · simpa using h1

theorem natLog2_le (n b : ℕ) (h1 : 1 ≤ n) (hb : n ≤ 2 ^ b) : natLog2 n ≤ b := by
  have h := pow_natLog2F_le n n h1 le_rfl
  have h2 : 2 ^ natLog2 n ≤ 2 ^ b := le_trans h hb
  exact (Nat.pow_le_pow_iff_right (by omega)).mp h2

theorem roundToGrid_bounds (x u : ℚ) (hu0 : 0 < u) :
    x - u < roundToGrid x u ∧ roundToGrid x u ≤ x + u := by
  simp only [roundToGrid]
  set q := x / u with hq
  set n := q.floor with hn
  have h1 : (n : ℚ) ≤ q := ratFloor_le q
  have h2 : q < (n : ℚ) + 1 := lt_ratFloor_add_one q
  have hqu : q * u = x := div_mul_cancel₀ x (ne_of_gt hu0)
  constructor
  · have hm : ∀ m : ℤ, n ≤ m → x - u < (m : ℚ) * u := by
      intro m hmn
      have hc : (n : ℚ) ≤ (m : ℚ) := by exact_mod_cast hmn
      nlinarith [mul_lt_mul_of_pos_right h2 hu0, mul_le_mul_of_nonneg_right hc (le_of_lt hu0)]
    split_ifs <;> exact hm _ (by omega)
  · have hm : ∀ m : ℤ, m ≤ n + 1 → (m : ℚ) * u ≤ x + u := by
      intro m hmn
      have hc : (m : ℚ) ≤ (n : ℚ) + 1 := by exact_mod_cast hmn
      nlinarith [mul_le_mul_of_nonneg_right h1 (le_of_lt hu0),
        mul_le_mul_of_nonneg_right hc (le_of_lt hu0)]
    split_ifs <;> exact hm _ (by omega)

theorem roundB64_bounds (x : ℚ) (h1 : 1 ≤ x) (h2 : x ≤ 2 ^ 40) :
    x - 1 / 2 ^ 12 < roundB64 x ∧ roundB64 x ≤ x + 1 / 2 ^ 12 := by
  have hfl1 : 1 ≤ x.floor := Rat.le_floor.mpr (by exact_mod_cast h1)
  have hfl2 : x.floor ≤ 2 ^ 40 := by
    have h3 : (x.floor : ℚ) ≤ ((2 ^ 40 : ℤ) : ℚ) := le_trans (ratFloor_le x) (by push_cast; exact h2)
    exact_mod_cast h3
  have he : natLog2 (Int.toNat x.floor) ≤ 40 := natLog2_le _ 40 (by omega) (by omega)
  have hu0 : (0 : ℚ) < 2 ^ natLog2 (Int.toNat x.floor) / 2 ^ 52 := by positivity
  have huB : (2 : ℚ) ^ natLog2 (Int.toNat x.floor) / 2 ^ 52 ≤ 1 / 2 ^ 12 := by
    have hpe : (2 : ℚ) ^ natLog2 (Int.toNat x.floor) ≤ 2 ^ 40 :=
      pow_le_pow_right₀ (by norm_num) he
    calc (2 : ℚ) ^ natLog2 (Int.toNat x.floor) / 2 ^ 52 ≤ 2 ^ 40 / 2 ^ 52 :=
          (div_le_div_iff_of_pos_right (by positivity)).mpr hpe
    _ = 1 / 2 ^ 12 := by norm_num
  obtain ⟨hl, hu⟩ := roundToGrid_bounds x _ hu0
  rw [roundB64]
  constructor
  · linarith
  · linarith

theorem fladd01_bounds (c : ℚ) (h1 : 1 ≤ c) (h2 : c ≤ 100) :
    c < fladd01 c ∧ fladd01 c ≤ c + 1 / 5 := by
  have hf : (0 : ℚ) < f01 ∧ f01 < 1 := by constructor <;> (rw [f01]; norm_num)
  have hx1 : (1 : ℚ) ≤ c + f01 := by linarith [hf.1]
  have hx2 : c + f01 ≤ 2 ^ 40 := by
    have : (101 : ℚ) ≤ 2 ^ 40 := by norm_num
    linarith [hf.2]
  obtain ⟨hl, hu⟩ := roundB64_bounds (c + f01) hx1 hx2
  have hgap : (1 : ℚ) / 2 ^ 12 < f01 := by rw [f01]; norm_num
  have hgap2 : f01 + 1 / 2 ^ 12 ≤ 1 / 5 := by rw [f01]; norm_num
  constructor
  · have : fladd01 c = roundB64 (c + f01) := rfl
    linarith
  · have : fladd01 c = roundB64 (c + f01) := rfl
    linarith

theorem cyc_bound : ∀ k : ℕ, k ≤ 290 → 1 ≤ cyc k ∧ cyc k ≤ 1 + (k : ℚ) / 5 := by
  intro k
  induction k with
  | zero => intro _; refine ⟨le_refl 1, by norm_num [cyc]⟩
  | succ n ih =>
    intro h
    obtain ⟨ih1, ih2⟩ := ih (by omega)
    have hcap : cyc n ≤ 100 := by
      have hn : (n : ℚ) ≤ 290 := by exact_mod_cast (by omega : n ≤ 290)
      linarith
    obtain ⟨hl, hu⟩ := fladd01_bounds (cyc n) ih1 hcap
    have hstep : cyc (n + 1) = fladd01 (cyc n) := rfl
    constructor
    · linarith
    · rw [hstep]
      push_cast
      linarith

theorem cyc_lt_succ (n : ℕ) (h : n ≤ 290) : cyc n < cyc (n + 1) := by
  obtain ⟨b1, b2⟩ := cyc_bound n h
  have hcap : cyc n ≤ 100 := by
    have hn : (n : ℚ) ≤ 290 := by exact_mod_cast h
    linarith
  exact (fladd01_bounds (cyc n) b1 hcap).1

theorem cyc_mono (i : ℕ) : ∀ j : ℕ, i ≤ j → j ≤ 290 → cyc i ≤ cyc j := by
  intro j
  induction j with
  | zero =>
    intro hij _
    have h0 : i = 0 := by omega
    rw [h0]
  | succ n ih =>
    intro hij hj
    rcases Nat.lt_or_ge i (n + 1) with hlt | hge
    · have h1 : cyc i ≤ cyc n := ih (by omega) (by omega)
      have h2 : cyc n < cyc (n + 1) := cyc_lt_succ n (by omega)
      linarith
    · have hieq : i = n + 1 := by omega
      rw [hieq]

/-- Every cycle value the loop can see before the exit step is at most 30. -/
theorem cyc_le_thirty (k : ℕ) (h : k ≤ 289) : cyc k ≤ 30 :=
  le_trans (cyc_mono k 289 h (by omega)) (le_of_lt cyc_289_lt_thirty)

theorem one_le_cyc (k : ℕ) (h : k ≤ 290) : 1 ≤ cyc k := (cyc_bound k h).1

end TrajectoryBounds

section LoopLemmas

theorem thirty_lit : (30.0 : ℚ) = 30 := by norm_num

theorem one_lit : (1.0 : ℚ) = 1 := by norm_num

variable (L : ℚ → ℚ) (R : Water) (D : Design) (K : Constraints) (S M : ℚ)

theorem simLoop_fuel_mono :
    ∀ (f₁ f₂ : ℕ) (c : ℚ) (h : List Step) (r : Step × List Step), f₁ ≤ f₂ →
      simLoop L R D K S M f₁ c h = some r → simLoop L R D K S M f₂ c h = some r := by
  intro f₁
  induction f₁ with
  | zero => intro f₂ c h r _ hr; simp [simLoop] at hr
  | succ n ih =>
    intro f₂ c h r hle hr
    obtain ⟨m, rfl⟩ : ∃ m, f₂ = m + 1 := ⟨f₂ - 1, by omega⟩
    simp only [simLoop] at hr ⊢
    split_ifs at hr ⊢ with hc
    · exact hr
    · exact ih m (fladd01 c) _ r (by omega) hr

theorem simLoop_isSome_of :
    ∀ (f k : ℕ) (h : List Step), (∃ j, j < f ∧ (30 : ℚ) < cyc (k + j)) →
      (simLoop L R D K S M f (cyc k) h).isSome := by
  intro f
  induction f with
  | zero => rintro k h ⟨j, hj, _⟩; omega
  | succ n ih =>
    rintro k h ⟨j, hj, hgt⟩
    simp only [simLoop]
    split_ifs with hc
    · rfl
    · rw [not_or, thirty_lit] at hc
      have hk30 : ¬ ((30 : ℚ) < cyc k) := hc.2
      have hj0 : j ≠ 0 := by
        rintro rfl
        rw [Nat.add_zero] at hgt
        exact hk30 hgt
      obtain ⟨j', rfl⟩ := Nat.exists_eq_succ_of_ne_zero hj0
      have hnext : fladd01 (cyc k) = cyc (k + 1) := rfl
      rw [hnext]
      refine ih (k + 1) _ ⟨j', by omega, ?_⟩
      rw [show k + 1 + j' = k + (j' + 1) by omega]
      exact hgt

theorem simLoop_length :
    ∀ (f : ℕ) (c : ℚ) (h : List Step) (safe : Step) (hist : List Step),
      simLoop L R D K S M f c h = some (safe, hist) → hist.length ≤ h.length + f := by
  intro f
  induction f with
  | zero => intro c h safe hist hr; simp [simLoop] at hr
  | succ n ih =>
    intro c h safe hist hr
    simp only [simLoop] at hr
    split_ifs at hr with hc
    · obtain ⟨h1, h2⟩ := Prod.mk.injEq .. ▸ Option.some.inj hr
      rw [← h2]
      simp
    · have := ih _ _ _ _ hr
      simp only [List.length_append, List.length_cons, List.length_nil] at this
      omega

theorem simLoop_safe_shape :
    ∀ (f : ℕ) (c : ℚ) (h : List Step) (safe : Step) (hist : List Step),
      simLoop L R D K S M f c h = some (safe, hist) →
      safe = pickSafe hist ∧ hist ≠ [] := by
  intro f
  induction f with
  | zero => intro c h safe hist hr; simp [simLoop] at hr
  | succ n ih =>
    intro c h safe hist hr
    simp only [simLoop] at hr
    split_ifs at hr with hc
    · obtain ⟨h1, h2⟩ := Prod.mk.injEq .. ▸ Option.some.inj hr
      rw [← h1, ← h2]
      simp
    · exact ih _ _ _ _ hr

theorem simLoop_last_cond :
    ∀ (f : ℕ) (c : ℚ) (h : List Step) (safe : Step) (hist : List Step),
      simLoop L R D K S M f c h = some (safe, hist) →
      (hist.getLastD dummyStep).Stop_Reason.isSome = true ∨
        (30 : ℚ) < (hist.getLastD dummyStep).Cycle := by
  intro f
  induction f with
  | zero => intro c h safe hist hr; simp [simLoop] at hr
  | succ n ih =>
    intro c h safe hist hr
    simp only [simLoop] at hr
    split_ifs at hr with hc
    · obtain ⟨h1, h2⟩ := Prod.mk.injEq .. ▸ Option.some.inj hr
      rw [← h2, List.getLastD_concat]
      rw [thirty_lit] at hc
      have hcy : (mkStep L R D K S M c).Cycle = c := rfl
      rw [hcy]
      exact hc
    · exact ih _ _ _ _ hr

theorem simLoop_hist_inv (P : Step → Prop)
    (hP : ∀ c : ℚ, 1 ≤ c → P (mkStep L R D K S M c)) :
    ∀ (f : ℕ) (c : ℚ) (h : List Step) (safe : Step) (hist : List Step),
      1 ≤ c → (∀ e ∈ h, P e) →
      simLoop L R D K S M f c h = some (safe, hist) →
      ∀ e ∈ hist, P e := by
  intro f
  induction f with
  | zero => intro c h safe hist _ _ hr; simp [simLoop] at hr
  | succ n ih =>
    intro c h safe hist hc1 hh hr
    simp only [simLoop] at hr
    split_ifs at hr with hc
    · obtain ⟨h1, h2⟩ := Prod.mk.injEq .. ▸ Option.some.inj hr
      rw [← h2]
      intro e he
      rcases List.mem_append.mp he with h3 | h3
      · exact hh e h3
      · rw [List.mem_singleton.mp h3]
        exact hP c hc1
    · rw [not_or, thirty_lit] at hc
      have hle : c ≤ 30 := le_of_not_lt hc.2
      have hnext : 1 ≤ fladd01 c :=
        le_of_lt (lt_of_le_of_lt hc1 (fladd01_bounds c hc1 (by linarith)).1)
      refine ih (fladd01 c) (h ++ [mkStep L R D K S M c]) safe hist hnext ?_ hr
      intro e he
      rcases List.mem_append.mp he with h3 | h3
      · exact hh e h3
      · rw [List.mem_singleton.mp h3]
        exact hP c hc1

theorem simLoop_earlier_none :
    ∀ (f : ℕ) (c : ℚ) (h : List Step) (safe : Step) (hist : List Step),
      (∀ e ∈ h, e.Stop_Reason = none) →
      simLoop L R D K S M f c h = some (safe, hist) →
      ∀ e ∈ hist.dropLast, e.Stop_Reason = none := by
  intro f
  induction f with
  | zero => intro c h safe hist _ hr; simp [simLoop] at hr
  | succ n ih =>
    intro c h safe hist hh hr
    simp only [simLoop] at hr
    split_ifs at hr with hc
    · obtain ⟨h1, h2⟩ := Prod.mk.injEq .. ▸ Option.some.inj hr
      rw [← h2, List.dropLast_concat]
      exact hh
    · rw [not_or] at hc
      have hnone : (mkStep L R D K S M c).Stop_Reason = none :=
        Option.not_isSome_iff_eq_none.mp (by simpa using hc.1)
      refine ih (fladd01 c) (h ++ [mkStep L R D K S M c]) safe hist ?_ hr
      intro e he
      rcases List.mem_append.mp he with h3 | h3
      · exact hh e h3
      · rw [List.mem_singleton.mp h3]
        exact hnone

/-- The block of consecutive steps generated from the trajectory position
`k` on; an abbreviation for the ceiling-run characterization below. -/
def ceilSteps (k n : ℕ) : List Step :=
  (List.range n).map fun j => mkStep L R D K S M (cyc (k + j))

theorem ceilSteps_succ (k n : ℕ) :
    ceilSteps L R D K S M k (n + 1) =
      mkStep L R D K S M (cyc k) :: ceilSteps L R D K S M (k + 1) n := by
  unfold ceilSteps
  rw [List.range_succ_eq_map, List.map_cons, List.map_map, Nat.add_zero]
  congr 1
  refine List.map_congr_left ?_
  intro j _
  simp only [Function.comp_apply, Nat.succ_eq_add_one]
  rw [show k + (j + 1) = k + 1 + j by omega]

theorem simLoop_no_stop_run :
    ∀ (m f k : ℕ) (h : List Step),
      m < f →
      (∀ j, j ≤ m → (mkStep L R D K S M (cyc (k + j))).Stop_Reason = none) →
      (∀ j, j < m → cyc (k + j) ≤ 30) →
      (30 : ℚ) < cyc (k + m) →
      simLoop L R D K S M f (cyc k) h =
        some (pickSafe (h ++ ceilSteps L R D K S M k (m + 1)),
              h ++ ceilSteps L R D K S M k (m + 1)) := by
  intro m
  induction m with
  | zero =>
    intro f k h hf hnone _ hgt
    obtain ⟨n, rfl⟩ : ∃ n, f = n + 1 := ⟨f - 1, by omega⟩
    rw [Nat.add_zero] at hgt
    simp only [simLoop]
    rw [if_pos (Or.inr (by rw [thirty_lit]; exact hgt))]
    rw [ceilSteps_succ]
    rfl
  | succ mm ih =>
    intro f k h hf hnone hlt hgt
    obtain ⟨n, rfl⟩ : ∃ n, f = n + 1 := ⟨f - 1, by omega⟩
    simp only [simLoop]
    have hc0 : (mkStep L R D K S M (cyc k)).Stop_Reason = none := by
      have := hnone 0 (by omega)
      rwa [Nat.add_zero] at this
    have hle0 : cyc k ≤ 30 := by
      have := hlt 0 (by omega)
      rwa [Nat.add_zero] at this
    rw [if_neg (by
      rw [not_or, thirty_lit]
      exact ⟨by simp [hc0], not_lt.mpr hle0⟩)]
    have hnext : fladd01 (cyc k) = cyc (k + 1) := rfl
    rw [hnext]
    have ihh := ih n (k + 1) (h ++ [mkStep L R D K S M (cyc k)]) (by omega)
      (fun j hj => by
        have := hnone (j + 1) (by omega)
        rwa [show k + (j + 1) = k + 1 + j by omega] at this)
      (fun j hj => by
        have := hlt (j + 1) (by omega)
        rwa [show k + (j + 1) = k + 1 + j by omega] at this)
      (by
        have := hgt
        rwa [show k + (mm + 1) = k + 1 + mm by omega] at this)
    rw [ihh]
    conv_rhs => rw [ceilSteps_succ, List.append_cons]

end LoopLemmas

section Fixtures

/-- The all-zeros logarithm stand-in used for concrete evaluations: the
engine is parametric in `log10`, and the fixtures below only exercise
behavior that is independent of the logarithm's values. -/
def zlog : ℚ → ℚ := fun _ => 0

/-- Degenerate make-up water (no hardness, no alkalinity): the index
calculator's sentinel branch is taken at every cycle. -/
def wSent : Water :=
  { CaH := 0, MgH := 0, Alk := 0, Cl := 0, SO4 := 0, SiO2 := 0,
    oPO4 := 0, pH := 7.8, Cond := 600, TDS := none }

/-- A make-up water in the app's default range (src/app.py line 134). -/
def wStd : Water :=
  { CaH := 80, MgH := 40, Alk := 100, Cl := 50, SO4 := 40, SiO2 := 10,
    oPO4 := 0, pH := 7.8, Cond := 600, TDS := none }

/-- Fixture `wStd` with a directly supplied TDS value. -/
def wTDS : Water := { wStd with TDS := some 5000 }

/-- High magnesium and silica: `Mg×SiO2 = 50000 > 40000` already at cycle 1. -/
def wMg : Water :=
  { CaH := 80, MgH := 1000, Alk := 100, Cl := 0, SO4 := 0, SiO2 := 50,
    oPO4 := 0, pH := 7.8, Cond := 600, TDS := none }

/-- Natural-mode design: 1000 m3/h, ΔT 10, basin 32 °C, no acid feed.
Hydraulic ceiling `(15.3 + 0.2) / 0.2 = 77.5`. -/
def desNat : Design :=
  { q_circ := 1000, dt := 10, t_out := 32, proc_loss := 0, load := 100, acid_ph := none }

/-- Acid-feed design with target pH 7.5. -/
def desAcid75 : Design := { desNat with acid_ph := some 7.5 }

/-- Acid-feed design with target pH 9.0, pinning the circulating pH above 8.8. -/
def desAcid9 : Design := { desNat with acid_ph := some 9 }

/-- Effectively unconstrained thresholds. -/
def kOpen : Constraints :=
  { max_SiO2 := 1000, max_LSI := 1000, max_CaSO4 := 1000000000, max_CaPO4 := 1000000000 }

/-- Tight silica threshold: violated already at cycle 1 by `wStd`. -/
def kSilica1 : Constraints :=
  { max_SiO2 := 5, max_LSI := 1000, max_CaSO4 := 1000000000, max_CaPO4 := 1000000000 }

/-- Silica threshold violated at the second step of a `wStd` run. -/
def kRoll : Constraints :=
  { max_SiO2 := 21 / 2, max_LSI := 1000, max_CaSO4 := 1000000000, max_CaPO4 := 1000000000 }

/-- Silica threshold violated at the second step of a `wMg` run. -/
def kMg : Constraints :=
  { max_SiO2 := 52, max_LSI := 1000, max_CaSO4 := 1000000000, max_CaPO4 := 1000000000 }

/-- Negative silica threshold: stops at once even for silica-free water. -/
def kNeg : Constraints :=
  { max_SiO2 := -1, max_LSI := 2.8, max_CaSO4 := 1000000000, max_CaPO4 := 1000000000 }

end Fixtures

section RunLemmas

@[simp] theorem mkStep_Cycle (L : ℚ → ℚ) (R : Water) (D : Design) (K : Constraints)
    (S M c : ℚ) : (mkStep L R D K S M c).Cycle = c := rfl

@[simp] theorem mkStep_curr (L : ℚ → ℚ) (R : Water) (D : Design) (K : Constraints)
    (S M c : ℚ) : (mkStep L R D K S M c).curr = concentrate L R D c := rfl

@[simp] theorem mkStep_idx (L : ℚ → ℚ) (R : Water) (D : Design) (K : Constraints)
    (S M c : ℚ) :
    (mkStep L R D K S M c).idx = calculate_indices L (concentrate L R D c) S := rfl

theorem mkStep_stop (L : ℚ → ℚ) (R : Water) (D : Design) (K : Constraints)
    (S M c : ℚ) :
    (mkStep L R D K S M c).Stop_Reason =
      stopCheck M c (concentrate L R D c)
        (calculate_indices L (concentrate L R D c) S) K := rfl

theorem one_eq_cyc_zero : (1.0 : ℚ) = cyc 0 := by rw [one_lit, cyc]

variable (L : ℚ → ℚ) (R : Water) (D : Design) (K : Constraints)

theorem run_simulation_isSome : (run_simulation L R D K).isSome = true := by
  rw [run_simulation, one_eq_cyc_zero]
  exact simLoop_isSome_of L R D K _ _ 291 0 [] ⟨290, by omega, by simpa using thirty_lt_cyc_290⟩

theorem run_simulation_length (safe : Step) (hist : List Step)
    (h : run_simulation L R D K = some (safe, hist)) : hist.length ≤ 291 := by
  rw [run_simulation] at h
  simpa using simLoop_length L R D K _ _ 291 1.0 [] safe hist h

theorem run_simulation_shape (safe : Step) (hist : List Step)
    (h : run_simulation L R D K = some (safe, hist)) :
    safe = pickSafe hist ∧ hist ≠ [] := by
  rw [run_simulation] at h
  exact simLoop_safe_shape L R D K _ _ 291 1.0 [] safe hist h

theorem run_simulation_last (safe : Step) (hist : List Step)
    (h : run_simulation L R D K = some (safe, hist)) :
    (hist.getLastD dummyStep).Stop_Reason.isSome = true ∨
      (30 : ℚ) < (hist.getLastD dummyStep).Cycle := by
  rw [run_simulation] at h
  exact simLoop_last_cond L R D K _ _ 291 1.0 [] safe hist h

theorem run_simulation_hist (safe : Step) (hist : List Step)
    (h : run_simulation L R D K = some (safe, hist)) :
    ∀ e ∈ hist,
      e.curr = concentrate L R D e.Cycle ∧
      e.idx = calculate_indices L e.curr (skin_temp D) ∧
      e.Stop_Reason = stopCheck (max_hydro_cycle D) e.Cycle e.curr e.idx K ∧
      1 ≤ e.Cycle := by
  rw [run_simulation] at h
  refine simLoop_hist_inv L R D K (skin_temp D) (max_hydro_cycle D)
    (fun e => e.curr = concentrate L R D e.Cycle ∧
      e.idx = calculate_indices L e.curr (skin_temp D) ∧
      e.Stop_Reason = stopCheck (max_hydro_cycle D) e.Cycle e.curr e.idx K ∧ 1 ≤ e.Cycle)
    (fun c hc => ⟨rfl, rfl, rfl, hc⟩) 291 1.0 [] safe hist (by rw [one_lit]) (by simp) h

theorem run_simulation_earlier_none (safe : Step) (hist : List Step)
    (h : run_simulation L R D K = some (safe, hist)) :
    ∀ e ∈ hist.dropLast, e.Stop_Reason = none := by
  rw [run_simulation] at h
  exact simLoop_earlier_none L R D K _ _ 291 1.0 [] safe hist (by simp) h

theorem pickSafe_mem_dropLast (hist : List Step) (h2 : 2 ≤ hist.length) :
    pickSafe hist ∈ hist.dropLast := by
  rw [pickSafe, if_pos (by omega)]
  have hlt : hist.length - 2 < hist.dropLast.length := by
    rw [List.length_dropLast]; omega
  rw [List.getD_eq_getElem hist dummyStep (by omega)]
  have := List.getElem_dropLast hist (hist.length - 2) hlt
  rw [← this]
  exact List.getElem_mem hlt

end RunLemmas

section CeilingRun

theorem ceilSteps_length (L : ℚ → ℚ) (R : Water) (D : Design) (K : Constraints)
    (S M : ℚ) (k n : ℕ) : (ceilSteps L R D K S M k n).length = n := by
  simp [ceilSteps]

theorem ceilSteps_getD (L : ℚ → ℚ) (R : Water) (D : Design) (K : Constraints)
    (S M : ℚ) (k n i : ℕ) (hi : i < n) :
    (ceilSteps L R D K S M k n).getD i dummyStep = mkStep L R D K S M (cyc (k + i)) := by
  rw [List.getD_eq_getElem _ dummyStep (by simpa [ceilSteps_length] using hi)]
  simp [ceilSteps]

theorem cyc_le_31 (k : ℕ) (h : k ≤ 290) : cyc k ≤ 31 := by
  rcases Nat.lt_or_ge k 290 with hk | hk
  · exact le_trans (cyc_le_thirty k (by omega)) (by norm_num)
  · have hk290 : k = 290 := by omega
    rw [hk290, cyc_290]
    norm_num

/-- For the degenerate water `wSent` with open thresholds, no constraint
ever fires within the cycle range the loop can reach. -/
theorem wSent_step_none (c : ℚ) (_h1 : 1 ≤ c) (h2 : c ≤ 31) :
    (mkStep zlog wSent desNat kOpen (skin_temp desNat) (max_hydro_cycle desNat)
      c).Stop_Reason = none := by
  have hM : max_hydro_cycle desNat = 155 / 2 := by
    norm_num [max_hydro_cycle, losses, evap, evap_factor, desNat]
  have hCaH : (concentrate zlog wSent desNat c).CaH = 0 := by
    simp [concentrate, wSent, desNat, truthy]
  have hSiO2 : (concentrate zlog wSent desNat c).SiO2 = 0 := by
    simp [concentrate, wSent, desNat, truthy]
  have hidx :
      calculate_indices zlog (concentrate zlog wSent desNat c) (skin_temp desNat) =
        sentinel_indices := by
    rw [calculate_indices, if_pos (Or.inl (le_of_eq hCaH))]
  rw [mkStep_stop, hidx, stopCheck, hM]
  rw [if_neg (not_le.mpr (by linarith))]
  rw [if_neg (by rw [hSiO2]; norm_num [kOpen])]
  rw [if_neg (by norm_num [sentinel_indices, kOpen])]
  rw [if_neg (by norm_num [sentinel_indices, kOpen])]
  rw [if_neg (by norm_num [sentinel_indices, kOpen])]

/-- The unconstrained degenerate run walks the full trajectory: 291 steps,
exit by the hard cycle ceiling. -/
theorem run_wSent :
    run_simulation zlog wSent desNat kOpen =
      some
        (pickSafe (ceilSteps zlog wSent desNat kOpen (skin_temp desNat)
          (max_hydro_cycle desNat) 0 291),
         ceilSteps zlog wSent desNat kOpen (skin_temp desNat)
          (max_hydro_cycle desNat) 0 291) := by
  rw [run_simulation, one_eq_cyc_zero]
  have h := simLoop_no_stop_run zlog wSent desNat kOpen (skin_temp desNat)
    (max_hydro_cycle desNat) 290 291 0 [] (by omega)
    (fun j hj => by
      rw [Nat.zero_add]
      exact wSent_step_none (cyc j) (one_le_cyc j (by omega)) (cyc_le_31 j (by omega)))
    (fun j hj => by
      rw [Nat.zero_add]
      exact cyc_le_thirty j (by omega))
    (by rw [Nat.zero_add]; exact thirty_lt_cyc_290)
  simpa using h

end CeilingRun

section WitnessRuns

/-- The one-step run of `wStd` against the tight silica threshold. -/
def runSil : Option (Step × List Step) := run_simulation zlog wStd desNat kSilica1

/-- Reported last-safe step of `runSil`. -/
def safeSil : Step := (runSil.getD (dummyStep, [])).1

/-- History of `runSil`. -/
def histSil : List Step := (runSil.getD (dummyStep, [])).2

/-- First (and only) history entry of `runSil`. -/
def eSil : Step := histSil.headD dummyStep

/-- The one-step acid-feed run of `wStd` against the tight silica threshold. -/
def runA75 : Option (Step × List Step) := run_simulation zlog wStd desAcid75 kSilica1

/-- Reported last-safe step of `runA75`. -/
def safeA75 : Step := (runA75.getD (dummyStep, [])).1

/-- History of `runA75`. -/
def histA75 : List Step := (runA75.getD (dummyStep, [])).2

/-- First history entry of `runA75`. -/
def eA75 : Step := histA75.headD dummyStep

/-- The two-step run of `wStd` against the silica threshold 10.5. -/
def runRoll : Option (Step × List Step) := run_simulation zlog wStd desNat kRoll

/-- Reported last-safe step of `runRoll`. -/
def safeRoll : Step := (runRoll.getD (dummyStep, [])).1

/-- History of `runRoll`. -/
def histRoll : List Step := (runRoll.getD (dummyStep, [])).2

/-- The one-step run of the degenerate water against `kNeg`. -/
def runNeg : Option (Step × List Step) := run_simulation zlog wSent desNat kNeg

/-- Reported last-safe step of `runNeg`. -/
def safeNeg : Step := (runNeg.getD (dummyStep, [])).1

/-- History of `runNeg`. -/
def histNeg : List Step := (runNeg.getD (dummyStep, [])).2

/-- First history entry of `runNeg`. -/
def eNeg : Step := histNeg.headD dummyStep

end WitnessRuns

section Claims

/-- C1: for every raw water, design and constraint set, the simulation loop
of `run_simulation` terminates and returns a result (it is never `none`),
the returned history has at most 291 entries, and the final history entry
either carries a violated-constraint stop reason or lies beyond the hard
cycle ceiling 30.0 (a ceiling-reached result). -/
theorem run_simulation_terminates (log10 : ℚ → ℚ) (R : Water) (D : Design)
    (K : Constraints) :
    Option.elim (run_simulation log10 R D K) False
      (fun r =>
        r.2.length ≤ 291 ∧
        ((r.2.getLastD dummyStep).Stop_Reason.isSome = true ∨
          (30 : ℚ) < (r.2.getLastD dummyStep).Cycle)) := by
  have hs := run_simulation_isSome log10 R D K
  obtain ⟨r, hr⟩ := Option.isSome_iff_exists.mp hs
  rw [hr]
  obtain ⟨safe, hist⟩ := r
  exact ⟨run_simulation_length log10 R D K safe hist hr,
    run_simulation_last log10 R D K safe hist hr⟩

/-- C4: the spec-modelled water balance closes exactly: makeup equals
evaporation plus required blowdown (hence also within 1e-6), the blowdown
is `evaporation / (cycles - 1)` for `cycles > 1`, and it is forced to 0
for `cycles ≤ 1`. -/
theorem computeWaterBalance_closure (des : Design) (volume cycles : ℚ) :
    (computeWaterBalance des volume cycles).makeup =
        (computeWaterBalance des volume cycles).evaporation +
          (computeWaterBalance des volume cycles).totalBlowdownNeeded ∧
      |(computeWaterBalance des volume cycles).makeup -
          ((computeWaterBalance des volume cycles).evaporation +
            (computeWaterBalance des volume cycles).totalBlowdownNeeded)| ≤ 1 / 1000000 ∧
      (1 < cycles →
        (computeWaterBalance des volume cycles).totalBlowdownNeeded =
          (computeWaterBalance des volume cycles).evaporation / (cycles - 1)) ∧
      (cycles ≤ 1 → (computeWaterBalance des volume cycles).totalBlowdownNeeded = 0) := by
  refine ⟨rfl, by norm_num [computeWaterBalance], ?_, ?_⟩
  · intro h
    simp only [computeWaterBalance, gt_iff_lt]
    rw [if_pos h]
  · intro h
    simp only [computeWaterBalance, gt_iff_lt]
    rw [if_neg (not_lt.mpr h)]

/-- Witness for C4 at a concrete design and `cycles = 5`. -/
theorem computeWaterBalance_closure_witness :
    (computeWaterBalance desNat 50 5).makeup =
        (computeWaterBalance desNat 50 5).evaporation +
          (computeWaterBalance desNat 50 5).totalBlowdownNeeded ∧
      (computeWaterBalance desNat 50 5).totalBlowdownNeeded =
        (computeWaterBalance desNat 50 5).evaporation / 4 := by
  have h := computeWaterBalance_closure desNat 50 5
  refine ⟨h.1, ?_⟩
  have h2 := h.2.2.1 (by norm_num)
  norm_num at h2
  exact h2

/-- C6: in natural mode the concentrated pH is exactly
`min (rawPH + log10 cycle) 9.3`; consequently it is monotone in the cycle
(for a monotone logarithm) and bounded above by 9.3. -/
theorem natural_pH_model (log10 : ℚ → ℚ) (raw : Water) (des : Design)
    (hmode : truthy des.acid_ph = false) (hmono : Monotone log10)
    (c c' : ℚ) (hcc : c ≤ c') :
    (concentrate log10 raw des c).pH = min (raw.pH + log10 c) 9.3 ∧
    (concentrate log10 raw des c).pH ≤ (concentrate log10 raw des c').pH ∧
    (concentrate log10 raw des c).pH ≤ 9.3 := by
  have hpH : ∀ d : ℚ, (concentrate log10 raw des d).pH = min (raw.pH + log10 d) 9.3 := by
    intro d
    simp [concentrate, hmode]
  refine ⟨hpH c, ?_, ?_⟩
  · rw [hpH c, hpH c']
    exact min_le_min (add_le_add_left (hmono hcc) _) le_rfl
  · rw [hpH c]
    exact min_le_right _ _

/-- Witness for C6 at concrete inputs with the constant logarithm. -/
theorem natural_pH_model_witness :
    (concentrate zlog wStd desNat 1).pH = min (wStd.pH + zlog 1) 9.3 ∧
    (concentrate zlog wStd desNat 1).pH ≤ (concentrate zlog wStd desNat 2).pH ∧
    (concentrate zlog wStd desNat 1).pH ≤ 9.3 :=
  natural_pH_model zlog wStd desNat (by decide) monotone_const 1 2 (by norm_num)

/-- C7: in acid-feed mode the concentrated pH equals the target pH at every
cycle, the concentrated alkalinity is `raw.Alk * cycle * 0.65`, and it is
strictly below the natural-mode alkalinity `raw.Alk * cycle` whenever the
raw alkalinity is positive. -/
theorem acid_feed_pH_alk (log10 : ℚ → ℚ) (raw : Water) (des desN : Design) (t : ℚ)
    (ht : des.acid_ph = some t) (ht0 : t ≠ 0) (hdesN : truthy desN.acid_ph = false)
    (c : ℚ) (hc : 1 ≤ c) (hAlk : 0 < raw.Alk) :
    (concentrate log10 raw des c).pH = t ∧
    (concentrate log10 raw des c).Alk = raw.Alk * c * 0.65 ∧
    (concentrate log10 raw desN c).Alk = raw.Alk * c ∧
    (concentrate log10 raw des c).Alk < (concentrate log10 raw desN c).Alk := by
  have htr : truthy des.acid_ph = true := by rw [ht]; simp [truthy, ht0]
  have h1 : (concentrate log10 raw des c).pH = t := by
    simp [concentrate, ht, truthy, ht0]
  have h2 : (concentrate log10 raw des c).Alk = raw.Alk * c * 0.65 := by
    simp [concentrate, htr]
  have h3 : (concentrate log10 raw desN c).Alk = raw.Alk * c := by
    simp [concentrate, hdesN]
  refine ⟨h1, h2, h3, ?_⟩
  rw [h2, h3]
  have hpos : 0 < raw.Alk * c := mul_pos hAlk (by linarith)
  have hlt : raw.Alk * c * 0.65 < raw.Alk * c * 1 :=
    mul_lt_mul_of_pos_left (by norm_num) hpos
  rwa [mul_one] at hlt

/-- Witness for C7 with target 7.5 at cycle 2. -/
theorem acid_feed_pH_alk_witness :
    (concentrate zlog wStd desAcid75 2).pH = 7.5 ∧
    (concentrate zlog wStd desAcid75 2).Alk = wStd.Alk * 2 * 0.65 ∧
    (concentrate zlog wStd desNat 2).Alk = wStd.Alk * 2 ∧
    (concentrate zlog wStd desAcid75 2).Alk < (concentrate zlog wStd desNat 2).Alk :=
  acid_feed_pH_alk zlog wStd desAcid75 desNat 7.5 rfl (by norm_num) (by decide) 2
    (by norm_num) (by norm_num [wStd])

/-- C8: non-positive calcium hardness or alkalinity makes `calculate_indices`
return the sentinel record instead of failing, and no simulation step whose
indices are the sentinel is ever stopped with the LSI reason. The hypothesis
`-99 ≤ K.max_LSI` reflects the only constraint sets the application builds
(the UI validates `max_LSI` into `[1.0, 3.5]`, src/app.py line 216). -/
theorem sentinel_guard (log10 : ℚ → ℚ) (w : Water) (t_c : ℚ)
    (hw : w.CaH ≤ 0 ∨ w.Alk ≤ 0) :
    calculate_indices log10 w t_c = sentinel_indices ∧
    ∀ (R : Water) (D : Design) (K : Constraints) (safe : Step) (hist : List Step)
      (e : Step),
      -99 ≤ K.max_LSI →
      run_simulation log10 R D K = some (safe, hist) → e ∈ hist →
      e.idx = sentinel_indices →
      e.Stop_Reason ≠ some StopReason.lsiLimit := by
  constructor
  · rw [calculate_indices, if_pos hw]
  · intro R D K safe hist e hK hrun he hidx
    obtain ⟨_, _, hstop, _⟩ := run_simulation_hist log10 R D K safe hist hrun e he
    rw [hstop, hidx, stopCheck]
    split_ifs with h1 h2 h3 h4 h5
    · simp
    · simp
    · exfalso
      rw [show sentinel_indices.LSI = -99 from rfl] at h3
      linarith
    · simp
    · simp
    · simp

/-- Witness for C8: the degenerate water yields the sentinel, and the
one-step `runNeg` entry (whose indices are the sentinel) is not stopped
with the LSI reason. -/
theorem sentinel_guard_witness :
    calculate_indices zlog wSent 47 = sentinel_indices ∧
    eNeg.Stop_Reason ≠ some StopReason.lsiLimit := by
  have h := sentinel_guard zlog wSent 47 (Or.inl (le_of_eq rfl))
  refine ⟨h.1, ?_⟩
  exact h.2 wSent desNat kNeg safeNeg histNeg eNeg (by norm_num [kNeg]) (by decide)
    (by decide) (by decide)

/-- C10: the indices returned by `calculate_indices` do not depend on the
discarded `get_log_k` result; the function is extensionally equal to the
variant with the call removed. -/
theorem calculate_indices_logk_independent (log10 : ℚ → ℚ) (w : Water) (t_c : ℚ) :
    calculate_indices log10 w t_c = calculate_indices_noK log10 w t_c := rfl

/-- First-match characterization of the five checks of `stopCheck`, and the
fact that it can never produce the spec's magnesium-silicate reason. -/
theorem stopCheck_cases (M c : ℚ) (w : Water) (i : Indices) (K : Constraints) :
    (stopCheck M c w i K = some StopReason.hydraulicLimit ↔ c ≥ M) ∧
    (stopCheck M c w i K = some StopReason.silicaLimit ↔
      ¬c ≥ M ∧ w.SiO2 > K.max_SiO2) ∧
    (stopCheck M c w i K = some StopReason.lsiLimit ↔
      ¬c ≥ M ∧ ¬w.SiO2 > K.max_SiO2 ∧ i.LSI > K.max_LSI) ∧
    (stopCheck M c w i K = some StopReason.gypsumRisk ↔
      ¬c ≥ M ∧ ¬w.SiO2 > K.max_SiO2 ∧ ¬i.LSI > K.max_LSI ∧ i.Ca_SO4 > K.max_CaSO4) ∧
    (stopCheck M c w i K = some StopReason.caPhosphateRisk ↔
      ¬c ≥ M ∧ ¬w.SiO2 > K.max_SiO2 ∧ ¬i.LSI > K.max_LSI ∧ ¬i.Ca_SO4 > K.max_CaSO4 ∧
        i.Ca_PO4_Product > K.max_CaPO4) ∧
    (stopCheck M c w i K = none ↔
      ¬c ≥ M ∧ ¬w.SiO2 > K.max_SiO2 ∧ ¬i.LSI > K.max_LSI ∧ ¬i.Ca_SO4 > K.max_CaSO4 ∧
        ¬i.Ca_PO4_Product > K.max_CaPO4) ∧
    stopCheck M c w i K ≠ some StopReason.mgSilicateRisk := by
  rw [stopCheck]
  split_ifs with h1 h2 h3 h4 h5 <;> simp_all

set_option maxRecDepth 8000 in
/-- Counterexample to C2 as stated: at the first step of the
`wMg`/`desAcid9`/`kMg` run the circulating pH is pinned to 9 (&gt; 8.8) and
`Mg×SiO2 = 50000 &gt; 40000` while no implemented check fires, so the
spec's six-rule priority list yields "Magnesium Silicate Risk" — but the
recorded stop reason is `none`: the code has no such rule. -/
theorem stop_priority_spec_cx :
    (run_simulation zlog wMg desAcid9 kMg).map
        (fun r =>
          ((r.2.headD dummyStep).Stop_Reason,
           specStopCheck (max_hydro_cycle desAcid9) (r.2.headD dummyStep).Cycle
             (r.2.headD dummyStep).curr (r.2.headD dummyStep).idx kMg)) =
      some (none, some StopReason.mgSilicateRisk) := by
  decide

/-- C2 amended: every recorded stop reason is the first match of the five
checks the code implements — hydraulic, silica, LSI, gypsum,
calcium-phosphate (the last checked unconditionally) — and the
magnesium-silicate reason of the spec is never reported. -/
theorem stop_priority_code (log10 : ℚ → ℚ) (R : Water) (D : Design) (K : Constraints)
    (safe : Step) (hist : List Step) (e : Step)
    (hrun : run_simulation log10 R D K = some (safe, hist)) (he : e ∈ hist) :
    e.Stop_Reason = stopCheck (max_hydro_cycle D) e.Cycle e.curr e.idx K ∧
    ((e.Stop_Reason = some StopReason.hydraulicLimit ↔ e.Cycle ≥ max_hydro_cycle D) ∧
     (e.Stop_Reason = some StopReason.silicaLimit ↔
       ¬e.Cycle ≥ max_hydro_cycle D ∧ e.curr.SiO2 > K.max_SiO2) ∧
     (e.Stop_Reason = some StopReason.lsiLimit ↔
       ¬e.Cycle ≥ max_hydro_cycle D ∧ ¬e.curr.SiO2 > K.max_SiO2 ∧
         e.idx.LSI > K.max_LSI) ∧
     (e.Stop_Reason = some StopReason.gypsumRisk ↔
       ¬e.Cycle ≥ max_hydro_cycle D ∧ ¬e.curr.SiO2 > K.max_SiO2 ∧
         ¬e.idx.LSI > K.max_LSI ∧ e.idx.Ca_SO4 > K.max_CaSO4) ∧
     (e.Stop_Reason = some StopReason.caPhosphateRisk ↔
       ¬e.Cycle ≥ max_hydro_cycle D ∧ ¬e.curr.SiO2 > K.max_SiO2 ∧
         ¬e.idx.LSI > K.max_LSI ∧ ¬e.idx.Ca_SO4 > K.max_CaSO4 ∧
         e.idx.Ca_PO4_Product > K.max_CaPO4) ∧
     (e.Stop_Reason = none ↔
       ¬e.Cycle ≥ max_hydro_cycle D ∧ ¬e.curr.SiO2 > K.max_SiO2 ∧
         ¬e.idx.LSI > K.max_LSI ∧ ¬e.idx.Ca_SO4 > K.max_CaSO4 ∧
         ¬e.idx.Ca_PO4_Product > K.max_CaPO4) ∧
     e.Stop_Reason ≠ some StopReason.mgSilicateRisk) := by
  obtain ⟨_, _, hstop, _⟩ := run_simulation_hist log10 R D K safe hist hrun e he
  rw [hstop]
  exact ⟨rfl, stopCheck_cases (max_hydro_cycle D) e.Cycle e.curr e.idx K⟩

/-- Witness for the amended C2 on the one-step `runSil` history entry. -/
theorem stop_priority_code_witness :
    eSil.Stop_Reason =
        stopCheck (max_hydro_cycle desNat) eSil.Cycle eSil.curr eSil.idx kSilica1 ∧
      eSil.Stop_Reason ≠ some StopReason.mgSilicateRisk := by
  have h := stop_priority_code zlog wStd desNat kSilica1 safeSil histSil eSil
    (by decide) (by decide)
  exact ⟨h.1, h.2.2.2.2.2.2.2⟩

/-- List fact used to read off the last history entry. -/
theorem getLastD_eq_getD {α : Type} (l : List α) (d : α) :
    l.getLastD d = l.getD (l.length - 1) d := by
  rw [List.getLastD_eq_getLast?, List.getLast?_eq_getElem?, List.getD_eq_getElem?_getD]

/-- Counterexample to C3 as stated: on the unconstrained degenerate run the
loop exits by the hard cycle ceiling, yet the returned last-safe step has
stop reason `none` (no "Maximum Cycle Ceiling Reached" reason exists in
the code) and is NOT the final history entry: the code rolls back one
increment in the ceiling case too. -/
theorem ceiling_rollback_cx :
    (run_simulation zlog wSent desNat kOpen).map
        (fun r =>
          (r.1.Stop_Reason, (r.2.getLastD dummyStep).Stop_Reason, r.2.length,
           decide (r.1.Cycle = (r.2.getLastD dummyStep).Cycle))) =
      some (none, none, 291, false) := by
  rw [run_wSent, Option.map_some']
  have hlen :
      (ceilSteps zlog wSent desNat kOpen (skin_temp desNat)
        (max_hydro_cycle desNat) 0 291).length = 291 :=
    ceilSteps_length zlog wSent desNat kOpen _ _ 0 291
  have hlast :
      (ceilSteps zlog wSent desNat kOpen (skin_temp desNat)
          (max_hydro_cycle desNat) 0 291).getLastD dummyStep =
        mkStep zlog wSent desNat kOpen (skin_temp desNat)
          (max_hydro_cycle desNat) (cyc 290) := by
    rw [getLastD_eq_getD, hlen]
    have h290 := ceilSteps_getD zlog wSent desNat kOpen (skin_temp desNat)
      (max_hydro_cycle desNat) 0 291 290 (by omega)
    rw [Nat.zero_add] at h290
    exact h290
  have hsafe :
      pickSafe (ceilSteps zlog wSent desNat kOpen (skin_temp desNat)
          (max_hydro_cycle desNat) 0 291) =
        mkStep zlog wSent desNat kOpen (skin_temp desNat)
          (max_hydro_cycle desNat) (cyc 289) := by
    rw [pickSafe, hlen, if_pos (by omega)]
    have h289 := ceilSteps_getD zlog wSent desNat kOpen (skin_temp desNat)
      (max_hydro_cycle desNat) 0 291 289 (by omega)
    rw [Nat.zero_add] at h289
    exact h289
  have hne : cyc 289 ≠ cyc 290 := by
    rw [cyc_289, cyc_290]
    norm_num
  rw [hsafe, hlast, hlen]
  rw [wSent_step_none (cyc 289) (one_le_cyc 289 (by omega)) (cyc_le_31 289 (by omega))]
  rw [wSent_step_none (cyc 290) (one_le_cyc 290 (by omega)) (cyc_le_31 290 (by omega))]
  rw [mkStep_Cycle, mkStep_Cycle, decide_eq_false hne]

/-- C3 amended: whenever `run_simulation` returns, the reported last-safe
step is the second-to-last history entry when at least two entries exist,
else the only entry — the rollback happens in the ceiling-reached case as
well. The rolled-back step always carries stop reason `none`, and a
`none` reason on the final entry means the hard ceiling (not a violation)
ended the run; no "Maximum Cycle Ceiling Reached" reason exists. -/
theorem rollback_behavior (log10 : ℚ → ℚ) (R : Water) (D : Design) (K : Constraints)
    (safe : Step) (hist : List Step)
    (h : run_simulation log10 R D K = some (safe, hist)) :
    hist ≠ [] ∧
    safe = pickSafe hist ∧
    (2 ≤ hist.length → safe = hist.getD (hist.length - 2) dummyStep ∧
      safe.Stop_Reason = none) ∧
    (hist.length = 1 → safe = hist.getD 0 dummyStep) ∧
    ((hist.getLastD dummyStep).Stop_Reason = none →
      (30 : ℚ) < (hist.getLastD dummyStep).Cycle) := by
  obtain ⟨hsafe, hne⟩ := run_simulation_shape log10 R D K safe hist h
  refine ⟨hne, hsafe, ?_, ?_, ?_⟩
  · intro h2
    have hpick : pickSafe hist = hist.getD (hist.length - 2) dummyStep := by
      rw [pickSafe, if_pos (by omega)]
    refine ⟨by rw [hsafe, hpick], ?_⟩
    have hmem := pickSafe_mem_dropLast hist h2
    have hnone := run_simulation_earlier_none log10 R D K safe hist h (pickSafe hist) hmem
    rw [hsafe]
    exact hnone
  · intro h1
    rw [hsafe, pickSafe, if_neg (by omega)]
    simp [h1]
  · intro hnone
    rcases run_simulation_last log10 R D K safe hist h with hs | hc
    · rw [hnone] at hs
      simp at hs
    · exact hc

set_option maxRecDepth 8000 in
/-- Witness for the amended C3 on the two-step `runRoll` run: the reported
step is the first of the two entries and carries no stop reason. -/
theorem rollback_behavior_witness :
    histRoll ≠ [] ∧
    safeRoll = histRoll.getD (histRoll.length - 2) dummyStep ∧
    safeRoll.Stop_Reason = none := by
  have h := rollback_behavior zlog wStd desNat kRoll safeRoll histRoll (by decide)
  have h2 := h.2.2.1 (by decide)
  exact ⟨h.1, h2.1, h2.2⟩

/-- Counterexample to C5 as stated: in acid-feed mode the recorded
concentrated alkalinity at cycle 1 is 65 = 100 × 1 × 0.65, not
`raw × cycle = 100`. -/
theorem linear_scaling_cx :
    (run_simulation zlog wStd desAcid75 kSilica1).map
        (fun r => ((r.2.headD dummyStep).curr.Alk, (r.2.headD dummyStep).Cycle)) =
      some (65, 1) ∧ wStd.Alk * (1 : ℚ) = 100 ∧ (65 : ℚ) ≠ 100 :=
  ⟨by decide, by decide, by decide⟩

/-- C5 amended: at every recorded simulation step, every ion of the raw
composition other than pH, TDS and alkalinity is exactly `raw × cycle`;
alkalinity is `raw × cycle` in natural mode but `raw × cycle × 0.65` in
acid-feed mode, and the step's TDS is always recomputed as the
concentrated conductivity times 0.65. -/
theorem concentrated_ions_linear (log10 : ℚ → ℚ) (R : Water) (D : Design)
    (K : Constraints) (safe : Step) (hist : List Step) (e : Step)
    (hrun : run_simulation log10 R D K = some (safe, hist)) (he : e ∈ hist) :
    e.curr.CaH = R.CaH * e.Cycle ∧ e.curr.MgH = R.MgH * e.Cycle ∧
    e.curr.Cl = R.Cl * e.Cycle ∧ e.curr.SO4 = R.SO4 * e.Cycle ∧
    e.curr.SiO2 = R.SiO2 * e.Cycle ∧ e.curr.oPO4 = R.oPO4 * e.Cycle ∧
    e.curr.Cond = R.Cond * e.Cycle ∧ 1 ≤ e.Cycle ∧
    e.curr.TDS = some (R.Cond * e.Cycle * 0.65) ∧
    (truthy D.acid_ph = false → e.curr.Alk = R.Alk * e.Cycle) ∧
    (truthy D.acid_ph = true → e.curr.Alk = R.Alk * e.Cycle * 0.65) := by
  obtain ⟨hcurr, _, _, hcyc⟩ := run_simulation_hist log10 R D K safe hist hrun e he
  rw [hcurr]
  cases htr : truthy D.acid_ph <;> simp [concentrate, htr, hcyc, mul_assoc]

/-- Witness for the amended C5 on the acid-feed one-step run. -/
theorem concentrated_ions_linear_witness :
    eA75.curr.CaH = wStd.CaH * eA75.Cycle ∧
    eA75.curr.Alk = wStd.Alk * eA75.Cycle * 0.65 := by
  have h := concentrated_ions_linear zlog wStd desAcid75 kSilica1 safeA75 histA75 eA75
    (by decide) (by decide)
  exact ⟨h.1, h.2.2.2.2.2.2.2.2.2.2 (by decide)⟩

/-- Counterexample to C9 as stated: the raw composition supplies TDS = 5000
directly, yet the first simulation step's index computation sees
TDS = 390 = conductivity × 0.65 — `run_simulation` overwrites the TDS at
every step. -/
theorem tds_override_cx :
    (run_simulation zlog wTDS desNat kSilica1).map
        (fun r => (r.2.headD dummyStep).curr.TDS) = some (some 390) ∧
    wTDS.TDS = some 5000 ∧ (390 : ℚ) ≠ 5000 :=
  ⟨by decide, by decide, by decide⟩

/-- C9 amended: inside `calculate_indices` a directly supplied TDS is used
unchanged and the conductivity-derived value is only a fallback, but the
simulator overwrites every step's TDS with the concentrated conductivity
times 0.65, so a TDS supplied in the raw composition never reaches the
index computation of a simulation step. -/
theorem tds_handling (w : Water) (v : ℚ) (log10 : ℚ → ℚ) (R : Water) (D : Design)
    (K : Constraints) (safe : Step) (hist : List Step) (e : Step) :
    (w.TDS = some v → effectiveTDS w = v) ∧
    (w.TDS = none → effectiveTDS w = w.Cond * 0.65) ∧
    (run_simulation log10 R D K = some (safe, hist) → e ∈ hist →
      e.curr.TDS = some (R.Cond * e.Cycle * 0.65) ∧
      effectiveTDS e.curr = R.Cond * e.Cycle * 0.65) := by
  refine ⟨?_, ?_, ?_⟩
  · intro h
    rw [effectiveTDS, h]
    rfl
  · intro h
    rw [effectiveTDS, h]
    rfl
  · intro hrun he
    obtain ⟨hcurr, _, _, _⟩ := run_simulation_hist log10 R D K safe hist hrun e he
    have hT : e.curr.TDS = some (R.Cond * e.Cycle * 0.65) := by
      rw [hcurr]
      cases htr : truthy D.acid_ph <;> simp [concentrate, htr]
    exact ⟨hT, by rw [effectiveTDS, hT]; rfl⟩

/-- Witness for the amended C9: supplied TDS respected by `effectiveTDS`,
conductivity fallback when absent, and the overwrite on the `runSil` entry. -/
theorem tds_handling_witness :
    effectiveTDS wTDS = 5000 ∧
    effectiveTDS wStd = wStd.Cond * 0.65 ∧
    eSil.curr.TDS = some (wStd.Cond * eSil.Cycle * 0.65) := by
  have h := tds_handling wTDS 5000 zlog wStd desNat kSilica1 safeSil histSil eSil
  have h2 := tds_handling wStd 5000 zlog wStd desNat kSilica1 safeSil histSil eSil
  exact ⟨h.1 (by decide), h2.2.1 (by decide), (h.2.2 (by decide) (by decide)).1⟩

end Claims

end CoolingTower
